/-
Verification of the specmgr synchronization core: a shallow embedding of
the manifest service (load / save / diff), the bulk synchronization pass
of the sync service, and the queue retry handler, with theorems checking
the specification's statements against the embedded code.

Source files embedded:
  src/src/server/app/services/manifest_service.py
  src/src/server/app/services/sync_service.py
  src/src/server/app/services/queue_service.py

Python dicts are embedded as association lists in insertion order with
unique keys; file-system and network effects are embedded as explicit
state passing (ManifestFS) or outcome oracles (SyncEnv).
-/
import Mathlib

namespace Specmgr

/-! ### Manifest data model

`ManifestDoc` mirrors the JSON document
`{"files": {<relative_path>: <fingerprint>}, "last_updated": ...}`. -/

structure ManifestDoc where
  files : List (String × String)
  last_updated : Option String
deriving DecidableEq, Repr

/-- First-match association-list lookup; Python `d[k]` / `k in d` over a
dict keyed by exact string equality. -/
def lookupA : List (String × String) → String → Option String
  | [], _ => none
  | (k, v) :: rest, key => if k = key then some v else lookupA rest key

/-! ### ManifestService.get_file_changes (manifest_service.py lines 155-198)

The Python loop over `current_files.items()` appends the path to
`added_files` when it is absent from the manifest, else to
`modified_files` when the stored hash differs; a second loop over
`manifest_files` collects `deleted_files`. -/

/-- The first loop of `get_file_changes`: builds `(added_files,
modified_files)` in iteration order of `current_files`. -/
def detectAddedModified (M : List (String × String)) :
    List (String × String) → List String × List String
  | [] => ([], [])
  | (file_path, current_hash) :: rest =>
    match lookupA M file_path with
    | none =>
      (file_path :: (detectAddedModified M rest).1, (detectAddedModified M rest).2)
    | some h =>
      if h ≠ current_hash then
        ((detectAddedModified M rest).1, file_path :: (detectAddedModified M rest).2)
      else detectAddedModified M rest

/-- The second loop of `get_file_changes`: builds `deleted_files` in
iteration order of `manifest_files`. -/
def detectDeleted (current_files : List (String × String)) :
    List (String × String) → List String
  | [] => []
  | (file_path, _) :: rest =>
    match lookupA current_files file_path with
    | none => file_path :: detectDeleted current_files rest
    | some _ => detectDeleted current_files rest

/-- `ManifestService.get_file_changes`, as a pure function of the
manifest's `files` map (which the Python method obtains via
`load_manifest`) and the scanned `current_files` map. -/
def get_file_changes (manifest_files current_files : List (String × String)) :
    List String × List String × List String :=
  ((detectAddedModified manifest_files current_files).1,
   (detectAddedModified manifest_files current_files).2,
   detectDeleted current_files manifest_files)

/-- The spec's worked example: manifest `{"a.md": "h1"}`, current files
`{"a.md": "h1", "b.md": "h2"}`. -/
def manifestEx : List (String × String) := [("a.md", "h1")]

def currentEx : List (String × String) := [("a.md", "h1"), ("b.md", "h2")]

/-! ### Manifest persistence (manifest_service.py lines 34-153)

The backing store is a JSON file at `manifest_path`; `load_manifest`
returns the empty document on an absent file, on an `OSError` during the
read, and on a `json.JSONDecodeError` (in the last case it best-effort
renames the corrupted file to the `.corrupted` path). `save_manifest`
stamps `last_updated`, writes the whole document to a `.tmp` path and
atomically renames it onto `manifest_path`.

The file system is embedded as `ManifestFS`: the contents of the
manifest path, the `.tmp` path and the `.corrupted` path. A file's bytes
either decode as UTF-8 and parse as a JSON document (`jsonBytes doc`),
decode as UTF-8 but fail the JSON parse — `json.JSONDecodeError` —
(`junkBytes`), or fail UTF-8 decoding itself (`undecodableBytes`):
reading the latter raises `UnicodeDecodeError`, which is caught by
neither `except OSError` nor `except json.JSONDecodeError` but by the
generic `except Exception` branch, which re-raises as `ManifestError`
(manifest_service.py lines 90-100). -/

inductive FileBytes
  | jsonBytes (doc : ManifestDoc)
  | junkBytes
  | undecodableBytes
deriving DecidableEq, Repr

/-- The `ManifestError` exception raised by the generic
`except Exception` branch of `load_manifest`. -/
inductive ManifestError
  | manifestError
deriving DecidableEq, Repr

structure ManifestFS where
  manifest : Option FileBytes
  temp : Option FileBytes
  corruptedBackup : Option FileBytes
deriving DecidableEq, Repr

/-- `{"files": {}, "last_updated": None}`. -/
def emptyDoc : ManifestDoc := { files := [], last_updated := none }

/-- A store holding decodable bytes that fail the JSON parse. -/
def fsJunk : ManifestFS :=
  { manifest := some FileBytes.junkBytes, temp := none, corruptedBackup := none }

/-- A store holding bytes that fail UTF-8 decoding. -/
def fsUndecodable : ManifestFS :=
  { manifest := some FileBytes.undecodableBytes, temp := none,
    corruptedBackup := none }

/-- `ManifestService.load_manifest`. `ioFail` embeds "the read raises
`OSError`" (caught first, before any decoding); `backupFail` embeds
"the backup rename of a corrupted file raises" (caught, best-effort).
The absent / OSError / JSONDecodeError branches return the empty
document; an exception outside those classes (undecodable bytes) falls
through to the generic `except Exception` branch, which raises
`ManifestError`. -/
def load_manifest (fs : ManifestFS) (ioFail backupFail : Bool) :
    Except ManifestError (ManifestFS × ManifestDoc) :=
  match fs.manifest with
  | none => Except.ok (fs, emptyDoc)
  | some content =>
    if ioFail then Except.ok (fs, emptyDoc)
    else
      match content with
      | FileBytes.jsonBytes d => Except.ok (fs, d)
      | FileBytes.junkBytes =>
        if backupFail then Except.ok (fs, emptyDoc)
        else
          Except.ok
            ({ fs with
                manifest := none,
                corruptedBackup := some FileBytes.junkBytes }, emptyDoc)
      | FileBytes.undecodableBytes => Except.error ManifestError.manifestError

/-- `ManifestService.save_manifest`: stamps `last_updated := now`, then
writes the document to the `.tmp` path, then atomically renames the temp
file onto the manifest path. Returns the list of intermediate
file-system states visible if the process crashes before the next step
(initial state, temp file partially written, temp file fully written)
together with the final state after the rename. -/
def save_manifest (fs : ManifestFS) (manifest : ManifestDoc) (now : String) :
    List ManifestFS × ManifestFS :=
  let stamped : ManifestDoc := { manifest with last_updated := some now }
  let midWrite : ManifestFS := { fs with temp := some FileBytes.junkBytes }
  let tempWritten : ManifestFS :=
    { fs with temp := some (FileBytes.jsonBytes stamped) }
  let renamed : ManifestFS :=
    { fs with manifest := some (FileBytes.jsonBytes stamped), temp := none }
  ([fs, midWrite, tempWritten], renamed)

/-! ### QueueService retry handling (queue_service.py lines 265-325)

`_handle_job_retry` increments `retry_count`, records the error, and
either sleeps `2 ** retry_count` seconds and re-enqueues the job to the
main queue (`retry_count <= max_retries`) or pushes it to the
`failed_jobs` dead-letter queue. The worker loop only ever pops the
main queue, so a dead-lettered job is never processed again; this is
embedded by `failRepeatedly` stopping at a dead-letter action. -/

structure QueueJob where
  id : String
  retry_count : Nat
  last_error : Option String
deriving DecidableEq, Repr

inductive RetryAction
  | requeue (delay : Nat) (job : QueueJob)
  | deadLetter (job : QueueJob)
deriving DecidableEq, Repr

/-- `QueueService.max_retries` (queue_service.py line 30). -/
def max_retries : Nat := 5

/-- `QueueService._handle_job_retry`: the decision taken for one
processing failure of `job` with error message `error`. -/
def handle_job_retry (job : QueueJob) (error : String) : RetryAction :=
  let j : QueueJob :=
    { job with retry_count := job.retry_count + 1, last_error := some error }
  if j.retry_count ≤ max_retries then RetryAction.requeue (2 ^ j.retry_count) j
  else RetryAction.deadLetter j

/-- The worker lifecycle of a job that fails every time it is
processed, for `n` processing attempts: a re-enqueued job is popped and
fails again; a dead-lettered job is never re-enqueued to the main queue,
so the trace ends there. -/
def failRepeatedly (error : String) : QueueJob → Nat → List RetryAction
  | _, 0 => []
  | job, n + 1 =>
    match handle_job_retry job error with
    | RetryAction.requeue d j => RetryAction.requeue d j :: failRepeatedly error j n
    | RetryAction.deadLetter j => [RetryAction.deadLetter j]

/-- The backoff delay of an action, `none` for a dead-letter move. -/
def delayOf : RetryAction → Option Nat
  | RetryAction.requeue d _ => some d
  | RetryAction.deadLetter _ => none

/-! ### SyncService.execute_bulk_sync (sync_service.py lines 48-198)

The shared status dict `_sync_status` is embedded as `SyncStatus`. The
pass is a function of that status, an environment `SyncEnv` giving the
scanned `current_files` map, the manifest's `files` map, and oracles for
the outcomes of the per-file effects (`none` = the operation succeeded,
`some msg` = it raised with message `msg`), plus the outcome of
`initialize_collection`. The returned pair is (status after the call
settles, outcome): the function raises `SyncInProgress` before touching
the status; any other propagated exception and the normal return pass
through the `finally` block, which clears `is_running` and
`current_file` (and nothing else). The per-file effects performed by
the pass are recorded in an event trace. -/

structure SyncStatus where
  is_running : Bool
  current : Nat
  total : Nat
  current_file : String
deriving DecidableEq, Repr

inductive SyncEvent
  | setProgress (current : Nat) (current_file : String)
  | deleteOp (path : String)
  | syncOp (path : String)
deriving DecidableEq, Repr

/-- The outcome of the `try` body of one sync-loop iteration
(sync_service.py lines 143-157), split at `processed_files += 1`
(line 149): `ok` — the whole body succeeds; `storeFail` — `sync_file`
or the manifest update raises (lines 144-148), before the increment;
`statFail` — `file_path.stat()` or the chunk estimate raises
(lines 152-154), after the increment, so the file is already counted
processed when the `except` at line 158 appends its error. -/
inductive SyncFileRes
  | ok
  | storeFail (msg : String)
  | statFail (msg : String)
deriving DecidableEq, Repr

structure SyncEnv where
  current_files : List (String × String)
  manifest_files : List (String × String)
  initRes : Option String
  deleteRes : String → Option String
  syncRes : String → SyncFileRes
  fileSize : String → Nat

inductive SyncErr
  | syncInProgress
  | passFailed (msg : String)
deriving DecidableEq, Repr

structure BulkSyncResult where
  success : Bool
  totalFiles : Nat
  processedFiles : Nat
  totalChunks : Nat
  errors : List String
deriving DecidableEq, Repr

structure PassOutcome where
  result : BulkSyncResult
  trace : List SyncEvent
deriving DecidableEq, Repr

/-- The mutable state threaded through the two loops of the pass:
the progress fields of `_sync_status` plus the local accumulators
`processed_files`, `errors`, `total_chunks`, and the event trace. -/
structure PassSt where
  current : Nat
  current_file : String
  processed : Nat
  errors : List String
  chunks : Nat
  trace : List SyncEvent
deriving DecidableEq, Repr

/-- `files_to_sync` and `files_to_delete` (sync_service.py lines 75-95):
under `force` every current file is synced and nothing is deleted;
otherwise the manifest diff gives `added + modified` to sync and
`deleted` to delete. -/
def planOf (env : SyncEnv) (force : Bool) : List String × List String :=
  if force then (env.current_files.map Prod.fst, [])
  else
    ((get_file_changes env.manifest_files env.current_files).1
        ++ (get_file_changes env.manifest_files env.current_files).2.1,
     (get_file_changes env.manifest_files env.current_files).2.2)

/-- One iteration of the deletion loop (lines 113-134), for the file at
index `i` of `files_to_delete`: advance `current` and `current_file`,
attempt the vector-store delete plus manifest removal, then either count
the file as processed or append `"Delete {path}: {e}"` to `errors`. -/
def stepDelete (env : SyncEnv) (i : Nat) (path : String) (s : PassSt) : PassSt :=
  let s1 : PassSt :=
    { s with
        current := i + 1,
        current_file := "Deleting " ++ path,
        trace := s.trace
          ++ [SyncEvent.setProgress (i + 1) ("Deleting " ++ path),
              SyncEvent.deleteOp path] }
  match env.deleteRes path with
  | none => { s1 with processed := s1.processed + 1 }
  | some msg => { s1 with errors := s1.errors ++ ["Delete " ++ path ++ ": " ++ msg] }

def processDeletes (env : SyncEnv) : List String → Nat → PassSt → PassSt
  | [], _, s => s
  | path :: rest, i, s => processDeletes env rest (i + 1) (stepDelete env i path s)

/-- One iteration of the sync loop (lines 137-169), for the file at
index `i` of `files_to_sync`, with `numDel` deletions before it:
advance `current` and `current_file`, then run the `try` body — on
`ok`, count the file processed and add the estimated chunk count
`max 1 (size / 1000)`; on `storeFail` (before the increment), append
`"{path}: {e}"` to `errors`; on `statFail` (after the increment), the
file is both counted processed and reported in `errors`, and no chunk
estimate is added. -/
def stepSync (env : SyncEnv) (numDel i : Nat) (path : String) (s : PassSt) : PassSt :=
  let s1 : PassSt :=
    { s with
        current := numDel + i + 1,
        current_file := path,
        trace := s.trace
          ++ [SyncEvent.setProgress (numDel + i + 1) path, SyncEvent.syncOp path] }
  match env.syncRes path with
  | SyncFileRes.ok =>
    { s1 with
        processed := s1.processed + 1,
        chunks := s1.chunks + max 1 (env.fileSize path / 1000) }
  | SyncFileRes.storeFail msg => { s1 with errors := s1.errors ++ [path ++ ": " ++ msg] }
  | SyncFileRes.statFail msg =>
    { s1 with
        processed := s1.processed + 1,
        errors := s1.errors ++ [path ++ ": " ++ msg] }

def processSyncs (env : SyncEnv) (numDel : Nat) : List String → Nat → PassSt → PassSt
  | [], _, s => s
  | path :: rest, i, s => processSyncs env numDel rest (i + 1) (stepSync env numDel i path s)

/-- The body of the `try` block after `initialize_collection` succeeded:
plan the pass, reset `current`, run the deletion loop then the sync
loop. `init_file` is the `current_file` value left over from before the
pass (the code does not reset it until the first loop iteration). -/
def runPass (env : SyncEnv) (force : Bool) (init_file : String) : PassSt :=
  processSyncs env (planOf env force).2.length (planOf env force).1 0
    (processDeletes env (planOf env force).2 0
      { current := 0, current_file := init_file, processed := 0,
        errors := [], chunks := 0, trace := [] })

/-- `SyncService.execute_bulk_sync`. Returns the settled status (the
shared `_sync_status` after the call completes or raises) and either the
`BulkSyncResult` with the event trace, or the raised error. -/
def execute_bulk_sync (st : SyncStatus) (env : SyncEnv) (force : Bool) :
    SyncStatus × Except SyncErr PassOutcome :=
  if st.is_running then (st, Except.error SyncErr.syncInProgress)
  else
    match env.initRes with
    | some msg =>
      ({ st with is_running := false, current_file := "" },
        Except.error (SyncErr.passFailed msg))
    | none =>
      let s2 := runPass env force st.current_file
      ({ is_running := false, current := s2.current,
         total := (planOf env force).1.length + (planOf env force).2.length,
         current_file := "" },
        Except.ok
          { result :=
              { success := s2.errors.isEmpty,
                totalFiles := env.current_files.length,
                processedFiles := s2.processed,
                totalChunks := s2.chunks,
                errors := s2.errors },
            trace := s2.trace })

/-- Projects the successful outcome of a call, defaulting to an empty
outcome on an error (used to name concrete outcomes in witnesses). -/
def outcomeOrEmpty (x : SyncStatus × Except SyncErr PassOutcome) : PassOutcome :=
  match x.2 with
  | Except.ok o => o
  | Except.error _ =>
    { result :=
        { success := true, totalFiles := 0, processedFiles := 0,
          totalChunks := 0, errors := [] },
      trace := [] }

/-- A trivial environment for witnesses. -/
def envTrivial : SyncEnv :=
  { current_files := [], manifest_files := [], initRes := none,
    deleteRes := fun _ => none, syncRes := fun _ => SyncFileRes.ok, fileSize := fun _ => 0 }

/-! ### Characterizations of the two loops -/

/-- The error string appended by the deletion loop for a failing file,
`"Delete {path}: {e}"`, as an option. -/
def deleteErrOf (env : SyncEnv) (path : String) : Option String :=
  (env.deleteRes path).map (fun msg => "Delete " ++ path ++ ": " ++ msg)

/-- The error string appended by the sync loop for a failing file,
`"{path}: {e}"`, as an option. -/
def syncErrOf (env : SyncEnv) (path : String) : Option String :=
  match env.syncRes path with
  | SyncFileRes.ok => none
  | SyncFileRes.storeFail msg => some (path ++ ": " ++ msg)
  | SyncFileRes.statFail msg => some (path ++ ": " ++ msg)

/-- Whether one sync-loop iteration increments `processed_files`: it
does unless the `try` body fails before the increment at line 149. -/
def syncCounted (env : SyncEnv) (path : String) : Bool :=
  match env.syncRes path with
  | SyncFileRes.storeFail _ => false
  | _ => true

/-- The events emitted by the deletion loop over `files` starting at
index `i`. -/
def deleteTraceAux : List String → Nat → List SyncEvent
  | [], _ => []
  | p :: rest, i =>
    SyncEvent.setProgress (i + 1) ("Deleting " ++ p) :: SyncEvent.deleteOp p ::
      deleteTraceAux rest (i + 1)

/-- The events emitted by the sync loop over `files` starting at index
`i`, after `numDel` deletions. -/
def syncTraceAux (numDel : Nat) : List String → Nat → List SyncEvent
  | [], _ => []
  | p :: rest, i =>
    SyncEvent.setProgress (numDel + i + 1) p :: SyncEvent.syncOp p ::
      syncTraceAux numDel rest (i + 1)

/-- The idle status a fresh `SyncService` starts with. -/
def stIdle : SyncStatus :=
  { is_running := false, current := 0, total := 0, current_file := "" }

/-- An environment whose manifest holds one entry for a file no longer
on disk: the pass performs exactly one deletion. -/
def envOneDelete : SyncEnv :=
  { current_files := [], manifest_files := [("gone.md", "h1")], initRes := none,
    deleteRes := fun _ => none, syncRes := fun _ => SyncFileRes.ok, fileSize := fun _ => 0 }

/-! ### Trace projections and ordering -/

/-- The path of a sync (store-write) attempt event. -/
def syncOpPath : SyncEvent → Option String
  | SyncEvent.syncOp p => some p
  | _ => none

/-- The path of a deletion attempt event. -/
def deleteOpPath : SyncEvent → Option String
  | SyncEvent.deleteOp p => some p
  | _ => none

/-- An event recording the attempt of a per-file operation. -/
def isOpEv : SyncEvent → Bool
  | SyncEvent.setProgress _ _ => false
  | SyncEvent.deleteOp _ => true
  | SyncEvent.syncOp _ => true

/-- Every operation event in the trace is immediately preceded by a
progress update. -/
def opsPreceded (tr : List SyncEvent) : Prop :=
  ∀ (j : Nat) (e : SyncEvent), tr.get? j = some e → isOpEv e = true →
    ∃ k c f, j = k + 1 ∧ tr.get? k = some (SyncEvent.setProgress c f)

/-- An environment with a file on disk and a manifest-only entry, for
exercising the force plan. -/
def envForceEx : SyncEnv :=
  { current_files := [("a.md", "h1")], manifest_files := [("gone.md", "h0")],
    initRes := none, deleteRes := fun _ => none, syncRes := fun _ => SyncFileRes.ok,
    fileSize := fun _ => 0 }

/-- The spec's partial-failure scenario: three files to sync, the second
raises during the store write. -/
def envSecondFails : SyncEnv :=
  { current_files := [("f1.md", "h1"), ("f2.md", "h2"), ("f3.md", "h3")],
    manifest_files := [], initRes := none,
    deleteRes := fun _ => none,
    syncRes := fun p =>
      if p = "f2.md" then SyncFileRes.storeFail "store-write failed"
      else SyncFileRes.ok,
    fileSize := fun _ => 0 }

/-- The post-increment failure scenario: three files to sync, the
second raises at `file_path.stat()` (sync_service.py line 152) after
`processed_files += 1` has already run. -/
def envSecondStatFails : SyncEnv :=
  { current_files := [("f1.md", "h1"), ("f2.md", "h2"), ("f3.md", "h3")],
    manifest_files := [], initRes := none,
    deleteRes := fun _ => none,
    syncRes := fun p =>
      if p = "f2.md" then SyncFileRes.statFail "stat failed"
      else SyncFileRes.ok,
    fileSize := fun _ => 0 }

/-- An environment with one deletion and two sync files, for exercising
the ordering guarantees. -/
def envMixed : SyncEnv :=
  { current_files := [("a.md", "h2"), ("new.md", "h3")],
    manifest_files := [("old.md", "h0"), ("a.md", "h1")], initRes := none,
    deleteRes := fun _ => none, syncRes := fun _ => SyncFileRes.ok,
    fileSize := fun _ => 1500 }

/-- Manifest-only entries with an empty disk: the pass deletes two
files while the scan found none. -/
def envManifestOnly : SyncEnv :=
  { current_files := [], manifest_files := [("a.md", "h1"), ("b.md", "h2")],
    initRes := none, deleteRes := fun _ => none, syncRes := fun _ => SyncFileRes.ok,
    fileSize := fun _ => 0 }

/-- Disk and manifest agree on two files: an incremental pass with no
changes. -/
def envNoChanges : SyncEnv :=
  { current_files := [("a.md", "h1"), ("b.md", "h2")],
    manifest_files := [("a.md", "h1"), ("b.md", "h2")],
    initRes := none, deleteRes := fun _ => none, syncRes := fun _ => SyncFileRes.ok,
    fileSize := fun _ => 0 }

/-! ### Lemmas and theorems -/

lemma lookupA_eq_none_iff (m : List (String × String)) (k : String) :
    lookupA m k = none ↔ k ∉ m.map Prod.fst := by
  induction m with
  | nil => simp [lookupA]
  | cons p rest ih =>
    obtain ⟨k2, v⟩ := p
    by_cases hk : k2 = k
    · subst hk; simp [lookupA]
    · simp [lookupA, hk, ih, Ne.symm hk]

lemma lookupA_mem_of_eq_some (m : List (String × String)) (k v : String)
    (h : lookupA m k = some v) : (k, v) ∈ m := by
  induction m with
  | nil => simp [lookupA] at h
  | cons p rest ih =>
    obtain ⟨k2, v2⟩ := p
    by_cases hk : k2 = k
    · subst hk
      have hl : lookupA ((k2, v2) :: rest) k2 = some v2 := by simp [lookupA]
      rw [hl] at h
      injection h with h
      subst h
      exact List.mem_cons_self _ _
    · simp only [lookupA, if_neg hk] at h
      exact List.mem_cons_of_mem _ (ih h)

lemma mem_detectAdded_iff (M C : List (String × String)) (p : String) :
    p ∈ (detectAddedModified M C).1 ↔
      p ∈ C.map Prod.fst ∧ lookupA M p = none := by
  induction C with
  | nil => simp [detectAddedModified]
  | cons q rest ih =>
    obtain ⟨fp, h⟩ := q
    cases hM : lookupA M fp with
    | none =>
      have hbody : (detectAddedModified M ((fp, h) :: rest)).1
          = fp :: (detectAddedModified M rest).1 := by
        simp only [detectAddedModified, hM]
      rw [hbody]
      simp only [List.mem_cons, List.map_cons, ih]
      constructor
      · rintro (rfl | ⟨hmem, hnone⟩)
        · exact ⟨Or.inl rfl, hM⟩
        · exact ⟨Or.inr hmem, hnone⟩
      · rintro ⟨rfl | hmem, hnone⟩
        · exact Or.inl rfl
        · exact Or.inr ⟨hmem, hnone⟩
    | some mh =>
      have hbody : (detectAddedModified M ((fp, h) :: rest)).1
          = (detectAddedModified M rest).1 := by
        simp only [detectAddedModified, hM]
        by_cases hne : mh ≠ h
        · rw [if_pos hne]
        · rw [if_neg hne]
      rw [hbody, ih]
      simp only [List.map_cons, List.mem_cons]
      constructor
      · rintro ⟨hmem, hnone⟩; exact ⟨Or.inr hmem, hnone⟩
      · rintro ⟨rfl | hmem, hnone⟩
        · rw [hM] at hnone; cases hnone
        · exact ⟨hmem, hnone⟩

lemma mem_detectModified_iff (M C : List (String × String)) (p : String)
    (hC : (C.map Prod.fst).Nodup) :
    p ∈ (detectAddedModified M C).2 ↔
      ∃ hm hc, lookupA M p = some hm ∧ lookupA C p = some hc ∧ hm ≠ hc := by
  induction C with
  | nil => simp [detectAddedModified, lookupA]
  | cons q rest ih =>
    obtain ⟨fp, h⟩ := q
    simp only [List.map_cons, List.nodup_cons] at hC
    have ihr := ih hC.2
    by_cases hfp : fp = p
    · subst hfp
      have hnotrest : lookupA rest fp = none :=
        (lookupA_eq_none_iff rest fp).mpr hC.1
      have hnotmem : fp ∉ (detectAddedModified M rest).2 := by
        rw [ihr]; rintro ⟨hm, hc, _, hcrest, _⟩
        rw [hnotrest] at hcrest; cases hcrest
      have hlookC : lookupA ((fp, h) :: rest) fp = some h := by
        simp [lookupA]
      rw [hlookC]
      cases hM : lookupA M fp with
      | none =>
        have hbody : (detectAddedModified M ((fp, h) :: rest)).2
            = (detectAddedModified M rest).2 := by
          simp only [detectAddedModified, hM]
        rw [hbody]
        constructor
        · intro hmem; exact absurd hmem hnotmem
        · rintro ⟨hm, hc, hMm, _, _⟩; exact Option.noConfusion hMm
      | some mh =>
        by_cases hne : mh ≠ h
        · have hbody : (detectAddedModified M ((fp, h) :: rest)).2
              = fp :: (detectAddedModified M rest).2 := by
            simp only [detectAddedModified, hM, if_pos hne]
          rw [hbody]
          constructor
          · intro _; exact ⟨mh, h, rfl, rfl, hne⟩
          · intro _; exact List.mem_cons_self _ _
        · have hmh : mh = h := not_not.mp hne
          have hbody : (detectAddedModified M ((fp, h) :: rest)).2
              = (detectAddedModified M rest).2 := by
            simp only [detectAddedModified, hM, if_neg hne]
          rw [hbody]
          constructor
          · intro hmem; exact absurd hmem hnotmem
          · rintro ⟨hm, hc, hMm, hCc, hneq⟩
            injection hMm with h1
            injection hCc with h2
            exact absurd (show hm = hc from by rw [← h1, ← h2]; exact hmh) hneq
    · have hlookC : lookupA ((fp, h) :: rest) p = lookupA rest p := by
        simp [lookupA, hfp]
      rw [hlookC]
      cases hM : lookupA M fp with
      | none =>
        have hbody : (detectAddedModified M ((fp, h) :: rest)).2
            = (detectAddedModified M rest).2 := by
          simp only [detectAddedModified, hM]
        rw [hbody]
        exact ihr
      | some mh =>
        by_cases hne : mh ≠ h
        · have hbody : (detectAddedModified M ((fp, h) :: rest)).2
              = fp :: (detectAddedModified M rest).2 := by
            simp only [detectAddedModified, hM, if_pos hne]
          rw [hbody, List.mem_cons]
          constructor
          · rintro (rfl | hmem)
            · exact absurd rfl hfp
            · exact ihr.mp hmem
          · intro hrhs; exact Or.inr (ihr.mpr hrhs)
        · have hbody : (detectAddedModified M ((fp, h) :: rest)).2
              = (detectAddedModified M rest).2 := by
            simp only [detectAddedModified, hM, if_neg hne]
          rw [hbody]
          exact ihr

lemma mem_detectDeleted_iff (C M : List (String × String)) (p : String) :
    p ∈ detectDeleted C M ↔ p ∈ M.map Prod.fst ∧ lookupA C p = none := by
  induction M with
  | nil => simp [detectDeleted]
  | cons q rest ih =>
    obtain ⟨fp, h⟩ := q
    cases hc : lookupA C fp with
    | none =>
      have hbody : detectDeleted C ((fp, h) :: rest)
          = fp :: detectDeleted C rest := by
        simp only [detectDeleted, hc]
      rw [hbody]
      simp only [List.mem_cons, List.map_cons, ih]
      constructor
      · rintro (rfl | ⟨hmem, hnone⟩)
        · exact ⟨Or.inl rfl, hc⟩
        · exact ⟨Or.inr hmem, hnone⟩
      · rintro ⟨rfl | hmem, hnone⟩
        · exact Or.inl rfl
        · exact Or.inr ⟨hmem, hnone⟩
    | some v =>
      have hbody : detectDeleted C ((fp, h) :: rest) = detectDeleted C rest := by
        simp only [detectDeleted, hc]
      rw [hbody]
      simp only [List.map_cons, List.mem_cons, ih]
      constructor
      · rintro ⟨hmem, hnone⟩; exact ⟨Or.inr hmem, hnone⟩
      · rintro ⟨rfl | hmem, hnone⟩
        · rw [hc] at hnone; cases hnone
        · exact ⟨hmem, hnone⟩

/-- C1: for every manifest map `M` and current-files map `C` (both with
unique keys, matching Python dicts), `get_file_changes` returns
`(added, modified, deleted)` where `added` is exactly the set of keys of
`C` absent from `M`, `modified` is exactly the set of keys present in
both whose fingerprints differ, and `deleted` is exactly the set of keys
of `M` absent from `C`; membership is decided by exact string equality
through `lookupA`. -/
theorem get_file_changes_correct (M C : List (String × String))
    (hM : (M.map Prod.fst).Nodup) (hC : (C.map Prod.fst).Nodup) (p : String) :
    (p ∈ (get_file_changes M C).1 ↔ p ∈ C.map Prod.fst ∧ p ∉ M.map Prod.fst) ∧
    (p ∈ (get_file_changes M C).2.1 ↔
      ∃ hm hc, lookupA M p = some hm ∧ lookupA C p = some hc ∧ hm ≠ hc) ∧
    (p ∈ (get_file_changes M C).2.2 ↔ p ∈ M.map Prod.fst ∧ p ∉ C.map Prod.fst) := by
  refine ⟨?_, ?_, ?_⟩
  · have : (get_file_changes M C).1 = (detectAddedModified M C).1 := rfl
    rw [this, mem_detectAdded_iff, lookupA_eq_none_iff]
  · have : (get_file_changes M C).2.1 = (detectAddedModified M C).2 := rfl
    rw [this, mem_detectModified_iff M C p hC]
  · have : (get_file_changes M C).2.2 = detectDeleted C M := rfl
    rw [this, mem_detectDeleted_iff, lookupA_eq_none_iff]

/-- Witness for C1 at the spec's example, path `"b.md"`. -/
theorem get_file_changes_correct_witness :
    ("b.md" ∈ (get_file_changes manifestEx currentEx).1 ↔
      "b.md" ∈ currentEx.map Prod.fst ∧ "b.md" ∉ manifestEx.map Prod.fst) ∧
    ("b.md" ∈ (get_file_changes manifestEx currentEx).2.1 ↔
      ∃ hm hc, lookupA manifestEx "b.md" = some hm ∧
        lookupA currentEx "b.md" = some hc ∧ hm ≠ hc) ∧
    ("b.md" ∈ (get_file_changes manifestEx currentEx).2.2 ↔
      "b.md" ∈ manifestEx.map Prod.fst ∧ "b.md" ∉ currentEx.map Prod.fst) :=
  get_file_changes_correct manifestEx currentEx (by decide) (by decide) "b.md"

/-- Counterexample to C6 as stated: a store whose bytes fail UTF-8
decoding is a corrupted store, yet `load_manifest` raises
`ManifestError` on it — `UnicodeDecodeError` escapes both
`except OSError` and `except json.JSONDecodeError` and hits the generic
`except Exception` branch at manifest_service.py lines 90-100. -/
theorem load_manifest_raises_on_undecodable :
    load_manifest fsUndecodable false false
      = Except.error ManifestError.manifestError := rfl

/-- C6 (amended): `load_manifest` never raises on an absent store, an
unreadable store (`OSError`), or a store whose bytes decode as UTF-8
but fail the JSON parse — in each of those cases it returns the empty
document `{files: {}, last_updated: null}`, and in the JSON-parse
failure case with a successful backup rename the corrupted file is
moved to the `.corrupted` path; but a store whose bytes fail outside
the two caught exception classes (undecodable UTF-8) reaches the
generic `except Exception` branch and `load_manifest` raises
`ManifestError`. -/
theorem load_manifest_error_semantics (fs : ManifestFS) (ioFail backupFail : Bool) :
    ((fs.manifest = none ∨ fs.manifest = some FileBytes.junkBytes ∨ ioFail = true) →
      (load_manifest fs ioFail backupFail).map Prod.snd = Except.ok emptyDoc) ∧
    (fs.manifest = some FileBytes.junkBytes → ioFail = false → backupFail = false →
      load_manifest fs ioFail backupFail
        = Except.ok
          ({ fs with
              manifest := none,
              corruptedBackup := some FileBytes.junkBytes }, emptyDoc)) ∧
    (fs.manifest = some FileBytes.undecodableBytes → ioFail = false →
      load_manifest fs ioFail backupFail
        = Except.error ManifestError.manifestError) := by
  refine ⟨?_, ?_, ?_⟩
  · intro h
    rcases h with h | h | h
    · rw [load_manifest, h]; rfl
    · rw [load_manifest, h]
      cases hio : ioFail with
      | true => rfl
      | false =>
        cases hb : backupFail with
        | true => rfl
        | false => rfl
    · subst h
      rw [load_manifest]
      cases hm : fs.manifest with
      | none => rfl
      | some c => rfl
  · intro hj hio hb
    rw [load_manifest, hj, hio, hb]
    rfl
  · intro hu hio
    rw [load_manifest, hu, hio]
    rfl

/-- Witness for C6 (amended): each branch discharged at a concrete
store — JSON-invalid decodable bytes degrade (with relocation),
undecodable bytes raise. -/
theorem load_manifest_error_semantics_witness :
    (load_manifest fsJunk false false).map Prod.snd = Except.ok emptyDoc ∧
    load_manifest fsJunk false false
      = Except.ok
        ({ manifest := none, temp := none,
            corruptedBackup := some FileBytes.junkBytes }, emptyDoc) ∧
    load_manifest fsUndecodable false false
      = Except.error ManifestError.manifestError :=
  ⟨(load_manifest_error_semantics fsJunk false false).1 (Or.inr (Or.inl rfl)),
   (load_manifest_error_semantics fsJunk false false).2.1 rfl rfl rfl,
   (load_manifest_error_semantics fsUndecodable false false).2.2 rfl rfl⟩

/-- C7: every crash point of `save_manifest` (and its completion) leaves
the store so that a subsequent `load_manifest` returns (document part,
raising included) either what it returned before the save or the new
fully-stamped document, never a partial one; and the completed save has
written the full stamped document to the manifest path. -/
theorem save_manifest_atomic (fs : ManifestFS) (manifest : ManifestDoc)
    (now : String) (c : ManifestFS)
    (hc : c ∈ (save_manifest fs manifest now).1 ++ [(save_manifest fs manifest now).2]) :
    ((load_manifest c false false).map Prod.snd
        = (load_manifest fs false false).map Prod.snd ∨
      (load_manifest c false false).map Prod.snd
        = Except.ok { manifest with last_updated := some now }) ∧
    (save_manifest fs manifest now).2.manifest
      = some (FileBytes.jsonBytes { manifest with last_updated := some now }) := by
  have hload : ∀ a b : ManifestFS, a.manifest = b.manifest →
      (load_manifest a false false).map Prod.snd
        = (load_manifest b false false).map Prod.snd := by
    intro a b hab
    rw [load_manifest, load_manifest, hab]
    cases b.manifest with
    | none => rfl
    | some content =>
      cases content with
      | jsonBytes d => rfl
      | junkBytes => rfl
      | undecodableBytes => rfl
  refine ⟨?_, rfl⟩
  simp only [save_manifest, List.mem_append, List.mem_cons, List.mem_singleton,
    List.not_mem_nil, or_false] at hc
  rcases hc with (hc | hc | hc) | hc
  · subst hc; exact Or.inl rfl
  · subst hc; exact Or.inl (hload _ _ rfl)
  · subst hc; exact Or.inl (hload _ _ rfl)
  · subst hc
    exact Or.inr rfl

/-- Witness for C7: crash just after the temp file is fully written,
starting from a store holding `{"a.md": "h1"}`. -/
theorem save_manifest_atomic_witness :
    ((load_manifest
        { manifest := some (FileBytes.jsonBytes
            { files := [("a.md", "h1")], last_updated := some "t0" }),
          temp := some (FileBytes.jsonBytes
            { files := [("b.md", "h2")], last_updated := some "t1" }),
          corruptedBackup := none } false false).map Prod.snd
      = (load_manifest
          { manifest := some (FileBytes.jsonBytes
              { files := [("a.md", "h1")], last_updated := some "t0" }),
            temp := none, corruptedBackup := none } false false).map Prod.snd ∨
     (load_manifest
        { manifest := some (FileBytes.jsonBytes
            { files := [("a.md", "h1")], last_updated := some "t0" }),
          temp := some (FileBytes.jsonBytes
            { files := [("b.md", "h2")], last_updated := some "t1" }),
          corruptedBackup := none } false false).map Prod.snd
      = Except.ok { files := [("b.md", "h2")], last_updated := some "t1" }) ∧
    (save_manifest
        { manifest := some (FileBytes.jsonBytes
            { files := [("a.md", "h1")], last_updated := some "t0" }),
          temp := none, corruptedBackup := none }
        { files := [("b.md", "h2")], last_updated := none }
        "t1").2.manifest
      = some (FileBytes.jsonBytes { files := [("b.md", "h2")], last_updated := some "t1" }) :=
  save_manifest_atomic
    { manifest := some (FileBytes.jsonBytes
        { files := [("a.md", "h1")], last_updated := some "t0" }),
      temp := none, corruptedBackup := none }
    { files := [("b.md", "h2")], last_updated := none }
    "t1"
    { manifest := some (FileBytes.jsonBytes
        { files := [("a.md", "h1")], last_updated := some "t0" }),
      temp := some (FileBytes.jsonBytes
        { files := [("b.md", "h2")], last_updated := some "t1" }),
      corruptedBackup := none }
    (by decide)

/-- C8: each failure increments `retry_count` by one; while the new
count is at most `max_retries = 5` the job is re-enqueued with delay
`2 ^ retry_count` seconds, and two successive failures produce strictly
increasing delays; the failure that pushes the count past 5 moves the
job to the dead-letter queue, after which it is never re-enqueued to
the main queue (the failure trace of a fresh job is five re-enqueues
with delays 2, 4, 8, 16, 32 and then one terminal dead-letter, and does
not grow with further attempts). -/
theorem handle_job_retry_policy (job : QueueJob) (error : String) :
    (job.retry_count + 1 ≤ max_retries →
      handle_job_retry job error = RetryAction.requeue (2 ^ (job.retry_count + 1))
        { job with retry_count := job.retry_count + 1, last_error := some error }) ∧
    (max_retries < job.retry_count + 1 →
      handle_job_retry job error = RetryAction.deadLetter
        { job with retry_count := job.retry_count + 1, last_error := some error }) ∧
    (∀ d1 j1 d2 j2, handle_job_retry job error = RetryAction.requeue d1 j1 →
      handle_job_retry j1 error = RetryAction.requeue d2 j2 → d1 < d2) ∧
    (job.retry_count = 0 →
      (failRepeatedly error job 6).map delayOf
          = [some 2, some 4, some 8, some 16, some 32, none] ∧
      ∀ n, 6 ≤ n → failRepeatedly error job n = failRepeatedly error job 6) := by
  refine ⟨?_, ?_, ?_, ?_⟩
  · intro hle
    rw [handle_job_retry, if_pos hle]
  · intro hgt
    have hn : ¬ (job.retry_count + 1 ≤ max_retries) := by omega
    rw [handle_job_retry, if_neg hn]
  · intro d1 j1 d2 j2 h1 h2
    rw [handle_job_retry] at h1 h2
    by_cases hle1 : job.retry_count + 1 ≤ max_retries
    · rw [if_pos hle1] at h1
      injection h1 with hd1 hj1
      subst hj1
      by_cases hle2 : job.retry_count + 1 + 1 ≤ max_retries
      · rw [if_pos hle2] at h2
        injection h2 with hd2 _
        subst hd1; subst hd2
        show 2 ^ (job.retry_count + 1) < 2 ^ (job.retry_count + 1 + 1)
        exact Nat.pow_lt_pow_succ (by omega)
      · rw [if_neg hle2] at h2; cases h2
    · rw [if_neg hle1] at h1; cases h1
  · intro h0
    obtain ⟨i, rc, le⟩ := job
    simp only at h0
    subst h0
    constructor
    · simp [failRepeatedly, handle_job_retry, max_retries, delayOf]
    · intro n hn
      obtain ⟨m, rfl⟩ : ∃ m, n = m + 6 := ⟨n - 6, by omega⟩
      simp [failRepeatedly, handle_job_retry, max_retries]

/-- Witness for C8 at a fresh job. -/
theorem handle_job_retry_policy_witness :
    handle_job_retry { id := "sync_1", retry_count := 0, last_error := none } "boom"
        = RetryAction.requeue 2
          { id := "sync_1", retry_count := 1, last_error := some "boom" } ∧
    (failRepeatedly "boom"
        { id := "sync_1", retry_count := 0, last_error := none } 6).map delayOf
        = [some 2, some 4, some 8, some 16, some 32, none] ∧
    failRepeatedly "boom"
        { id := "sync_1", retry_count := 0, last_error := none } 9
      = failRepeatedly "boom"
        { id := "sync_1", retry_count := 0, last_error := none } 6 := by
  have h := handle_job_retry_policy
    { id := "sync_1", retry_count := 0, last_error := none } "boom"
  refine ⟨?_, (h.2.2.2 rfl).1, (h.2.2.2 rfl).2 9 (by omega)⟩
  have h1 := h.1 (by decide)
  exact h1

/-- C2: calling `execute_bulk_sync` while a pass is running raises
`SyncInProgress` immediately and leaves every field of the shared
status unchanged. -/
theorem execute_bulk_sync_single_flight (st : SyncStatus) (env : SyncEnv)
    (force : Bool) (h : st.is_running = true) :
    execute_bulk_sync st env force = (st, Except.error SyncErr.syncInProgress) := by
  rw [execute_bulk_sync, if_pos h]

/-- Witness for C2: a running pass at progress 5/10. -/
theorem execute_bulk_sync_single_flight_witness :
    execute_bulk_sync
        { is_running := true, current := 5, total := 10, current_file := "f5.md" }
        envTrivial true
      = ({ is_running := true, current := 5, total := 10, current_file := "f5.md" },
         Except.error SyncErr.syncInProgress) :=
  execute_bulk_sync_single_flight
    { is_running := true, current := 5, total := 10, current_file := "f5.md" }
    envTrivial true rfl

lemma stepDelete_trace (env : SyncEnv) (i : Nat) (path : String) (s : PassSt) :
    (stepDelete env i path s).trace
      = s.trace ++ [SyncEvent.setProgress (i + 1) ("Deleting " ++ path),
          SyncEvent.deleteOp path] := by
  cases h : env.deleteRes path <;> simp [stepDelete, h]

lemma stepDelete_processed (env : SyncEnv) (i : Nat) (path : String) (s : PassSt) :
    (stepDelete env i path s).processed
      = s.processed + (if (env.deleteRes path).isNone then 1 else 0) := by
  cases h : env.deleteRes path <;> simp [stepDelete, h]

lemma stepDelete_errors (env : SyncEnv) (i : Nat) (path : String) (s : PassSt) :
    (stepDelete env i path s).errors = s.errors ++ (deleteErrOf env path).toList := by
  cases h : env.deleteRes path <;> simp [stepDelete, h, deleteErrOf]

lemma stepSync_trace (env : SyncEnv) (numDel i : Nat) (path : String) (s : PassSt) :
    (stepSync env numDel i path s).trace
      = s.trace ++ [SyncEvent.setProgress (numDel + i + 1) path,
          SyncEvent.syncOp path] := by
  cases h : env.syncRes path <;> simp [stepSync, h]

lemma stepSync_processed (env : SyncEnv) (numDel i : Nat) (path : String) (s : PassSt) :
    (stepSync env numDel i path s).processed
      = s.processed + (if syncCounted env path then 1 else 0) := by
  cases h : env.syncRes path <;> simp [stepSync, syncCounted, h]

lemma stepSync_errors (env : SyncEnv) (numDel i : Nat) (path : String) (s : PassSt) :
    (stepSync env numDel i path s).errors = s.errors ++ (syncErrOf env path).toList := by
  cases h : env.syncRes path <;> simp [stepSync, h, syncErrOf]

lemma processDeletes_trace (env : SyncEnv) :
    ∀ (files : List String) (i : Nat) (s : PassSt),
      (processDeletes env files i s).trace = s.trace ++ deleteTraceAux files i
  | [], i, s => by simp [processDeletes, deleteTraceAux]
  | path :: rest, i, s => by
    rw [processDeletes,
      processDeletes_trace env rest (i + 1) (stepDelete env i path s),
      stepDelete_trace, deleteTraceAux]
    simp

lemma processDeletes_processed (env : SyncEnv) :
    ∀ (files : List String) (i : Nat) (s : PassSt),
      (processDeletes env files i s).processed
        = s.processed + files.countP (fun p => (env.deleteRes p).isNone)
  | [], i, s => by simp [processDeletes]
  | path :: rest, i, s => by
    rw [processDeletes,
      processDeletes_processed env rest (i + 1) (stepDelete env i path s),
      stepDelete_processed, List.countP_cons]
    cases h : env.deleteRes path <;> simp [h] <;> omega

lemma processDeletes_errors (env : SyncEnv) :
    ∀ (files : List String) (i : Nat) (s : PassSt),
      (processDeletes env files i s).errors
        = s.errors ++ files.filterMap (deleteErrOf env)
  | [], i, s => by simp [processDeletes]
  | path :: rest, i, s => by
    rw [processDeletes,
      processDeletes_errors env rest (i + 1) (stepDelete env i path s),
      stepDelete_errors, List.filterMap_cons]
    cases h : env.deleteRes path <;> simp [deleteErrOf, h]

lemma processSyncs_trace (env : SyncEnv) (numDel : Nat) :
    ∀ (files : List String) (i : Nat) (s : PassSt),
      (processSyncs env numDel files i s).trace = s.trace ++ syncTraceAux numDel files i
  | [], i, s => by simp [processSyncs, syncTraceAux]
  | path :: rest, i, s => by
    rw [processSyncs,
      processSyncs_trace env numDel rest (i + 1) (stepSync env numDel i path s),
      stepSync_trace, syncTraceAux]
    simp

lemma processSyncs_processed (env : SyncEnv) (numDel : Nat) :
    ∀ (files : List String) (i : Nat) (s : PassSt),
      (processSyncs env numDel files i s).processed
        = s.processed + files.countP (syncCounted env)
  | [], i, s => by simp [processSyncs]
  | path :: rest, i, s => by
    rw [processSyncs,
      processSyncs_processed env numDel rest (i + 1) (stepSync env numDel i path s),
      stepSync_processed, List.countP_cons]
    cases h : syncCounted env path <;> simp [h] <;> omega

lemma processSyncs_errors (env : SyncEnv) (numDel : Nat) :
    ∀ (files : List String) (i : Nat) (s : PassSt),
      (processSyncs env numDel files i s).errors
        = s.errors ++ files.filterMap (syncErrOf env)
  | [], i, s => by simp [processSyncs]
  | path :: rest, i, s => by
    rw [processSyncs,
      processSyncs_errors env numDel rest (i + 1) (stepSync env numDel i path s),
      stepSync_errors, List.filterMap_cons]
    cases h : env.syncRes path <;> simp [syncErrOf, h]

lemma runPass_trace (env : SyncEnv) (force : Bool) (f : String) :
    (runPass env force f).trace
      = deleteTraceAux (planOf env force).2 0
        ++ syncTraceAux (planOf env force).2.length (planOf env force).1 0 := by
  rw [runPass, processSyncs_trace, processDeletes_trace]
  simp

lemma runPass_errors (env : SyncEnv) (force : Bool) (f : String) :
    (runPass env force f).errors
      = (planOf env force).2.filterMap (deleteErrOf env)
        ++ (planOf env force).1.filterMap (syncErrOf env) := by
  rw [runPass, processSyncs_errors, processDeletes_errors]
  simp

lemma runPass_processed (env : SyncEnv) (force : Bool) (f : String) :
    (runPass env force f).processed
      = (planOf env force).2.countP (fun p => (env.deleteRes p).isNone)
        + (planOf env force).1.countP (syncCounted env) := by
  rw [runPass, processSyncs_processed, processDeletes_processed]
  simp

/-- Inversion of a successful `execute_bulk_sync` call: the outcome's
fields in terms of `runPass`. -/
lemma execute_bulk_sync_ok (st : SyncStatus) (env : SyncEnv) (force : Bool)
    (h : st.is_running = false) (out : PassOutcome)
    (hok : (execute_bulk_sync st env force).2 = Except.ok out) :
    out.trace = (runPass env force st.current_file).trace ∧
    out.result.errors = (runPass env force st.current_file).errors ∧
    out.result.processedFiles = (runPass env force st.current_file).processed ∧
    out.result.success = (runPass env force st.current_file).errors.isEmpty ∧
    out.result.totalFiles = env.current_files.length := by
  rw [execute_bulk_sync, if_neg (by simp [h])] at hok
  cases hinit : env.initRes with
  | some msg =>
    rw [hinit] at hok
    cases hok
  | none =>
    rw [hinit] at hok
    injection hok with hok
    subst hok
    exact ⟨rfl, rfl, rfl, rfl, rfl⟩

/-! ### C3: the settle-time state of the shared status -/

/-- C3 (amended): whenever `execute_bulk_sync` terminates other than by
the `SyncInProgress` rejection — returning a result or propagating an
exception — the settled status has `is_running = false` and
`current_file = ""`; `current` is not reset by the cleanup block (it
retains the index of the last attempted operation). -/
theorem execute_bulk_sync_settles_idle (st : SyncStatus) (env : SyncEnv)
    (force : Bool) (h : st.is_running = false) :
    (execute_bulk_sync st env force).1.is_running = false ∧
    (execute_bulk_sync st env force).1.current_file = "" := by
  rw [execute_bulk_sync, if_neg (by simp [h])]
  cases env.initRes <;> exact ⟨rfl, rfl⟩

/-- Witness for C3 (amended) at a concrete idle state. -/
theorem execute_bulk_sync_settles_idle_witness :
    (execute_bulk_sync
        { is_running := false, current := 0, total := 0, current_file := "" }
        envTrivial true).1.is_running = false ∧
    (execute_bulk_sync
        { is_running := false, current := 0, total := 0, current_file := "" }
        envTrivial true).1.current_file = "" :=
  execute_bulk_sync_settles_idle
    { is_running := false, current := 0, total := 0, current_file := "" }
    envTrivial true rfl

/-- Counterexample to C3 as stated: a non-rejected pass that performs
one deletion settles with `current = 1`, not `current = 0` — the
cleanup block resets only `is_running` and `current_file`. -/
theorem execute_bulk_sync_settle_current_not_reset :
    (execute_bulk_sync stIdle envOneDelete false).2
        = Except.ok
          { result :=
              { success := true, totalFiles := 0, processedFiles := 1,
                totalChunks := 0, errors := [] },
            trace := [SyncEvent.setProgress 1 "Deleting gone.md",
              SyncEvent.deleteOp "gone.md"] } ∧
    (execute_bulk_sync stIdle envOneDelete false).1.current = 1 ∧
    ¬ (execute_bulk_sync stIdle envOneDelete false).1.current = 0 := by
  refine ⟨rfl, rfl, ?_⟩
  intro hzero
  rw [show (execute_bulk_sync stIdle envOneDelete false).1.current = 1 from rfl] at hzero
  exact one_ne_zero hzero

lemma filterMap_syncOpPath_deleteTraceAux :
    ∀ (l : List String) (i : Nat), (deleteTraceAux l i).filterMap syncOpPath = []
  | [], _ => by simp [deleteTraceAux]
  | p :: rest, i => by
    simp [deleteTraceAux, List.filterMap_cons, syncOpPath,
      filterMap_syncOpPath_deleteTraceAux rest (i + 1)]

lemma filterMap_deleteOpPath_deleteTraceAux :
    ∀ (l : List String) (i : Nat), (deleteTraceAux l i).filterMap deleteOpPath = l
  | [], _ => by simp [deleteTraceAux]
  | p :: rest, i => by
    simp [deleteTraceAux, List.filterMap_cons, deleteOpPath,
      filterMap_deleteOpPath_deleteTraceAux rest (i + 1)]

lemma filterMap_syncOpPath_syncTraceAux (numDel : Nat) :
    ∀ (l : List String) (i : Nat), (syncTraceAux numDel l i).filterMap syncOpPath = l
  | [], _ => by simp [syncTraceAux]
  | p :: rest, i => by
    simp [syncTraceAux, List.filterMap_cons, syncOpPath,
      filterMap_syncOpPath_syncTraceAux numDel rest (i + 1)]

lemma filterMap_deleteOpPath_syncTraceAux (numDel : Nat) :
    ∀ (l : List String) (i : Nat), (syncTraceAux numDel l i).filterMap deleteOpPath = []
  | [], _ => by simp [syncTraceAux]
  | p :: rest, i => by
    simp [syncTraceAux, List.filterMap_cons, deleteOpPath,
      filterMap_deleteOpPath_syncTraceAux numDel rest (i + 1)]

lemma no_syncOp_in_deleteTraceAux :
    ∀ (l : List String) (i : Nat) (e : SyncEvent), e ∈ deleteTraceAux l i →
      ∀ q, e ≠ SyncEvent.syncOp q
  | [], _, e, he => by simp [deleteTraceAux] at he
  | p :: rest, i, e, he => by
    simp only [deleteTraceAux, List.mem_cons] at he
    rcases he with rfl | rfl | he
    · intro q; exact fun hq => SyncEvent.noConfusion hq
    · intro q; exact fun hq => SyncEvent.noConfusion hq
    · exact no_syncOp_in_deleteTraceAux rest (i + 1) e he

lemma no_deleteOp_in_syncTraceAux (numDel : Nat) :
    ∀ (l : List String) (i : Nat) (e : SyncEvent), e ∈ syncTraceAux numDel l i →
      ∀ q, e ≠ SyncEvent.deleteOp q
  | [], _, e, he => by simp [syncTraceAux] at he
  | p :: rest, i, e, he => by
    simp only [syncTraceAux, List.mem_cons] at he
    rcases he with rfl | rfl | he
    · intro q; exact fun hq => SyncEvent.noConfusion hq
    · intro q; exact fun hq => SyncEvent.noConfusion hq
    · exact no_deleteOp_in_syncTraceAux numDel rest (i + 1) e he

lemma opsPreceded_deleteTraceAux :
    ∀ (l : List String) (i : Nat), opsPreceded (deleteTraceAux l i)
  | [], _ => by intro j e hj; simp [deleteTraceAux] at hj
  | p :: rest, i => by
    intro j e hj hop
    match j with
    | 0 =>
      rw [deleteTraceAux] at hj
      injection hj with hj
      subst hj
      cases hop
    | 1 =>
      refine ⟨0, i + 1, "Deleting " ++ p, rfl, ?_⟩
      rw [deleteTraceAux]
      rfl
    | Nat.succ (Nat.succ j) =>
      rw [deleteTraceAux] at hj
      have hj2 : (deleteTraceAux rest (i + 1)).get? j = some e := hj
      obtain ⟨k, c, f, hk, hget⟩ :=
        opsPreceded_deleteTraceAux rest (i + 1) j e hj2 hop
      refine ⟨k + 2, c, f, by omega, ?_⟩
      rw [deleteTraceAux]
      exact hget

lemma opsPreceded_syncTraceAux (numDel : Nat) :
    ∀ (l : List String) (i : Nat), opsPreceded (syncTraceAux numDel l i)
  | [], _ => by intro j e hj; simp [syncTraceAux] at hj
  | p :: rest, i => by
    intro j e hj hop
    match j with
    | 0 =>
      rw [syncTraceAux] at hj
      injection hj with hj
      subst hj
      cases hop
    | 1 =>
      refine ⟨0, numDel + i + 1, p, rfl, ?_⟩
      rw [syncTraceAux]
      rfl
    | Nat.succ (Nat.succ j) =>
      rw [syncTraceAux] at hj
      have hj2 : (syncTraceAux numDel rest (i + 1)).get? j = some e := hj
      obtain ⟨k, c, f, hk, hget⟩ :=
        opsPreceded_syncTraceAux numDel rest (i + 1) j e hj2 hop
      refine ⟨k + 2, c, f, by omega, ?_⟩
      rw [syncTraceAux]
      exact hget

lemma opsPreceded_append (l1 l2 : List SyncEvent)
    (h1 : opsPreceded l1) (h2 : opsPreceded l2) : opsPreceded (l1 ++ l2) := by
  intro j e hj hop
  by_cases hlt : j < l1.length
  · rw [List.get?_append hlt] at hj
    obtain ⟨k, c, f, hk, hget⟩ := h1 j e hj hop
    refine ⟨k, c, f, hk, ?_⟩
    rw [List.get?_append (by omega)]
    exact hget
  · push_neg at hlt
    rw [List.get?_append_right hlt] at hj
    obtain ⟨k, c, f, hk, hget⟩ := h2 (j - l1.length) e hj hop
    refine ⟨l1.length + k, c, f, by omega, ?_⟩
    rw [List.get?_append_right (by omega)]
    have hsimp : l1.length + k - l1.length = k := by omega
    rw [hsimp]
    exact hget

lemma deleteOps_before_syncOps (l1 l2 : List SyncEvent)
    (h1 : ∀ e ∈ l1, ∀ q, e ≠ SyncEvent.syncOp q)
    (h2 : ∀ e ∈ l2, ∀ q, e ≠ SyncEvent.deleteOp q) :
    ∀ (i j : Nat) (p q : String),
      (l1 ++ l2).get? i = some (SyncEvent.deleteOp p) →
      (l1 ++ l2).get? j = some (SyncEvent.syncOp q) → i < j := by
  intro i j p q hi hj
  have hiL : i < l1.length := by
    by_contra hge
    push_neg at hge
    rw [List.get?_append_right hge] at hi
    exact h2 _ (List.get?_mem hi) p rfl
  have hjR : l1.length ≤ j := by
    by_contra hlt
    push_neg at hlt
    rw [List.get?_append hlt] at hj
    exact h1 _ (List.get?_mem hj) q rfl
  omega

/-! ### C4, C5, C9, C10 -/

/-- C4: under `force = true` the pass attempts a sync of exactly the
keys of the scanned `current_files` map, in scan order, and attempts no
deletion (no vector-store delete and no manifest removal), whatever the
manifest holds. -/
theorem execute_bulk_sync_force_plan (st : SyncStatus) (env : SyncEnv)
    (h : st.is_running = false) (out : PassOutcome)
    (hok : (execute_bulk_sync st env true).2 = Except.ok out) :
    out.trace.filterMap syncOpPath = env.current_files.map Prod.fst ∧
    out.trace.filterMap deleteOpPath = [] := by
  obtain ⟨htr, -, -, -, -⟩ := execute_bulk_sync_ok st env true h out hok
  have hplan : planOf env true = (env.current_files.map Prod.fst, []) := by
    rw [planOf, if_pos rfl]
  rw [htr, runPass_trace, hplan]
  constructor
  · rw [List.filterMap_append, filterMap_syncOpPath_deleteTraceAux,
      filterMap_syncOpPath_syncTraceAux]
    rfl
  · rw [List.filterMap_append, filterMap_deleteOpPath_deleteTraceAux,
      filterMap_deleteOpPath_syncTraceAux]
    rfl

/-- Witness for C4: a force pass over one on-disk file with a
manifest-only entry syncs exactly that file and deletes nothing. -/
theorem execute_bulk_sync_force_plan_witness :
    (execute_bulk_sync stIdle envForceEx true).2
        = Except.ok
          { result :=
              { success := true, totalFiles := 1, processedFiles := 1,
                totalChunks := 1, errors := [] },
            trace := [SyncEvent.setProgress 1 "a.md", SyncEvent.syncOp "a.md"] } ∧
    ((execute_bulk_sync stIdle envForceEx true).2.map
        (fun o => o.trace.filterMap syncOpPath)
      = Except.ok (envForceEx.current_files.map Prod.fst)) ∧
    ((execute_bulk_sync stIdle envForceEx true).2.map
        (fun o => o.trace.filterMap deleteOpPath)
      = Except.ok []) := by
  have h := execute_bulk_sync_force_plan stIdle envForceEx rfl
    { result :=
        { success := true, totalFiles := 1, processedFiles := 1,
          totalChunks := 1, errors := [] },
      trace := [SyncEvent.setProgress 1 "a.md", SyncEvent.syncOp "a.md"] }
    rfl
  exact ⟨rfl, by rw [show (execute_bulk_sync stIdle envForceEx true).2
      = Except.ok
        { result :=
            { success := true, totalFiles := 1, processedFiles := 1,
              totalChunks := 1, errors := [] },
          trace := [SyncEvent.setProgress 1 "a.md", SyncEvent.syncOp "a.md"] }
      from rfl, Except.map, h.1], by rw [show (execute_bulk_sync stIdle envForceEx true).2
      = Except.ok
        { result :=
            { success := true, totalFiles := 1, processedFiles := 1,
              totalChunks := 1, errors := [] },
          trace := [SyncEvent.setProgress 1 "a.md", SyncEvent.syncOp "a.md"] }
      from rfl, Except.map, h.2]⟩

/-- Counterexample to C5 as stated: the claim makes `processed_files`
and the errored files complementary ("processed_files counts exactly
the files that succeeded", each failure contributing one error entry
instead). In the program, `file_path.stat()` at sync_service.py
line 152 sits inside the `try` after `processed_files += 1` at
line 149, so a pass over 3 sync files whose 2nd fails there counts all
3 files processed AND reports one error for the 2nd: `processed_files
= 3` with a nonempty `errors` — the errored file is among those
counted, so processed cannot equal the count of error-free files. -/
theorem execute_bulk_sync_processed_overlaps_errors :
    (planOf envSecondStatFails false).1 = ["f1.md", "f2.md", "f3.md"] ∧
    (outcomeOrEmpty
        (execute_bulk_sync stIdle envSecondStatFails false)).result.processedFiles
      = 3 ∧
    (outcomeOrEmpty (execute_bulk_sync stIdle envSecondStatFails false)).result.errors
      = ["f2.md: stat failed"] ∧
    (outcomeOrEmpty (execute_bulk_sync stIdle envSecondStatFails false)).result.success
      = false :=
  ⟨rfl, rfl, rfl, rfl⟩

/-- C5 (amended): in every non-rejected bulk pass, a per-file failure
does not abort the pass: the trace still attempts every planned
operation; `errors` is exactly the per-file failure strings in
processing order (deletions first), one descriptive entry per failing
file; `success` holds iff `errors` is empty; and `processed_files`
counts exactly the deletions that succeeded plus the sync files whose
`try` body reached the `processed_files += 1` increment (store write
and manifest update succeeded) — a sync file failing only afterwards,
in the chunk-estimation `stat`, is counted processed AND contributes an
error entry; in particular, over 3 sync files where the 2nd fails
during store-write the pass yields `success = false`,
`processed_files = 2` and one error entry naming file 2. -/
theorem execute_bulk_sync_partial_failure (st : SyncStatus) (env : SyncEnv)
    (force : Bool) (h : st.is_running = false) (out : PassOutcome)
    (hok : (execute_bulk_sync st env force).2 = Except.ok out) :
    out.result.errors
      = (planOf env force).2.filterMap (deleteErrOf env)
        ++ (planOf env force).1.filterMap (syncErrOf env) ∧
    out.result.processedFiles
      = (planOf env force).2.countP (fun p => (env.deleteRes p).isNone)
        + (planOf env force).1.countP (syncCounted env) ∧
    (out.result.success = true ↔ out.result.errors = []) ∧
    out.trace.filterMap syncOpPath = (planOf env force).1 ∧
    out.trace.filterMap deleteOpPath = (planOf env force).2 := by
  obtain ⟨htr, herr, hproc, hsucc, -⟩ := execute_bulk_sync_ok st env force h out hok
  refine ⟨?_, ?_, ?_, ?_, ?_⟩
  · rw [herr, runPass_errors]
  · rw [hproc, runPass_processed]
  · rw [hsucc, herr, List.isEmpty_iff]
  · rw [htr, runPass_trace, List.filterMap_append,
      filterMap_syncOpPath_deleteTraceAux, filterMap_syncOpPath_syncTraceAux]
    rfl
  · rw [htr, runPass_trace, List.filterMap_append,
      filterMap_deleteOpPath_deleteTraceAux, filterMap_deleteOpPath_syncTraceAux,
      List.append_nil]

/-- Witness for C5: the three-file pass whose second file fails yields
`success = false`, `processed_files = 2`, and exactly one error entry
naming the second file. -/
theorem execute_bulk_sync_partial_failure_witness :
    (outcomeOrEmpty (execute_bulk_sync stIdle envSecondFails false)).result.success
        = false ∧
    (outcomeOrEmpty
        (execute_bulk_sync stIdle envSecondFails false)).result.processedFiles = 2 ∧
    (outcomeOrEmpty (execute_bulk_sync stIdle envSecondFails false)).result.errors
        = ["f2.md: store-write failed"] ∧
    (outcomeOrEmpty (execute_bulk_sync stIdle envSecondFails false)).trace.filterMap
        syncOpPath = ["f1.md", "f2.md", "f3.md"] := by
  have h := execute_bulk_sync_partial_failure stIdle envSecondFails false rfl
    (outcomeOrEmpty (execute_bulk_sync stIdle envSecondFails false)) rfl
  refine ⟨?_, ?_, ?_, ?_⟩
  · have hs := h.2.2.1
    rw [h.1] at hs
    cases hb : (outcomeOrEmpty
        (execute_bulk_sync stIdle envSecondFails false)).result.success
    · rfl
    · exact absurd (by rw [← hb] at hs; exact (hs.mp rfl)) (by decide)
  · rw [h.2.1]; rfl
  · rw [h.1]; rfl
  · rw [h.2.2.2.1]; rfl

/-- C9: in every non-rejected bulk pass, every deletion attempt occurs
in the trace strictly before every sync attempt, and every per-file
operation attempt is immediately preceded by the progress update of
`current` and `current_file` for that operation. -/
theorem execute_bulk_sync_ordering (st : SyncStatus) (env : SyncEnv)
    (force : Bool) (h : st.is_running = false) (out : PassOutcome)
    (hok : (execute_bulk_sync st env force).2 = Except.ok out) :
    (∀ (i j : Nat) (p q : String),
      out.trace.get? i = some (SyncEvent.deleteOp p) →
      out.trace.get? j = some (SyncEvent.syncOp q) → i < j) ∧
    opsPreceded out.trace := by
  obtain ⟨htr, -, -, -, -⟩ := execute_bulk_sync_ok st env force h out hok
  rw [htr, runPass_trace]
  constructor
  · exact deleteOps_before_syncOps _ _
      (no_syncOp_in_deleteTraceAux _ 0)
      (no_deleteOp_in_syncTraceAux _ _ 0)
  · exact opsPreceded_append _ _
      (opsPreceded_deleteTraceAux _ 0)
      (opsPreceded_syncTraceAux _ _ 0)

/-- Witness for C9 at a mixed pass (one deletion, two sync files). -/
theorem execute_bulk_sync_ordering_witness :
    (∀ (i j : Nat) (p q : String),
      (outcomeOrEmpty (execute_bulk_sync stIdle envMixed false)).trace.get? i
          = some (SyncEvent.deleteOp p) →
      (outcomeOrEmpty (execute_bulk_sync stIdle envMixed false)).trace.get? j
          = some (SyncEvent.syncOp q) → i < j) ∧
    opsPreceded (outcomeOrEmpty (execute_bulk_sync stIdle envMixed false)).trace :=
  execute_bulk_sync_ordering stIdle envMixed false rfl
    (outcomeOrEmpty (execute_bulk_sync stIdle envMixed false)) rfl

/-- C10: `SyncResult.total_files` is the size of the scanned
current-files map, not the number of operations; hence a non-force pass
over manifest-only entries reports `processed_files = 2 > total_files
= 0`, and an incremental pass with no changes reports
`processed_files = 0` with `total_files = 2`. -/
theorem execute_bulk_sync_totalFiles (st : SyncStatus) (env : SyncEnv)
    (force : Bool) (h : st.is_running = false) (out : PassOutcome)
    (hok : (execute_bulk_sync st env force).2 = Except.ok out) :
    out.result.totalFiles = env.current_files.length ∧
    (outcomeOrEmpty
        (execute_bulk_sync stIdle envManifestOnly false)).result.processedFiles = 2 ∧
    (outcomeOrEmpty
        (execute_bulk_sync stIdle envManifestOnly false)).result.totalFiles = 0 ∧
    (outcomeOrEmpty
        (execute_bulk_sync stIdle envNoChanges false)).result.processedFiles = 0 ∧
    (outcomeOrEmpty
        (execute_bulk_sync stIdle envNoChanges false)).result.totalFiles = 2 := by
  obtain ⟨-, -, -, -, htot⟩ := execute_bulk_sync_ok st env force h out hok
  exact ⟨htot, rfl, rfl, rfl, rfl⟩

/-- Witness for C10 at the manifest-only environment. -/
theorem execute_bulk_sync_totalFiles_witness :
    (outcomeOrEmpty
        (execute_bulk_sync stIdle envManifestOnly false)).result.totalFiles
      = envManifestOnly.current_files.length ∧
    (outcomeOrEmpty
        (execute_bulk_sync stIdle envManifestOnly false)).result.processedFiles = 2 ∧
    (outcomeOrEmpty
        (execute_bulk_sync stIdle envManifestOnly false)).result.totalFiles = 0 ∧
    (outcomeOrEmpty
        (execute_bulk_sync stIdle envNoChanges false)).result.processedFiles = 0 ∧
    (outcomeOrEmpty
        (execute_bulk_sync stIdle envNoChanges false)).result.totalFiles = 2 :=
  execute_bulk_sync_totalFiles stIdle envManifestOnly false rfl
    (outcomeOrEmpty (execute_bulk_sync stIdle envManifestOnly false)) rfl

end Specmgr
